import Mathlib

/-!
Verification of the recurrence-overlap engine and event filter of the
lark-mcp-server repository.

The engine `isRecurrenceInRange` (src/src/utils/recurrence.ts and its build
output build/utils/recurrence.js) decides whether any occurrence of a
recurring event overlaps a query window.  The batch filter of the
`list_events` handler (build/utils/token.js) combines it with a containment
test for non-recurring events.

Timestamps are Unix seconds, embedded as `Int`.  The external rrule library
(`rrulestr`, `RRule.between`) is not part of the repository; it is modelled
from the spec (sections 4.1, 4.2 and 9) by `parseRRule` and `ruleBetween`
below.
-/

/-- A start/end pair of Unix timestamps in seconds, as in the `TimeRange`
interface of src/src/utils/recurrence.ts. -/
structure TimeRange where
  startTime : Int
  endTime : Int
deriving DecidableEq, Repr

/-- Recurrence frequency of a parsed rule.  Modelled from the spec: the
external rule-evaluation capability supports the standard frequency
constructs; the model covers the sub-monthly frequencies, whose occurrence
step is a fixed number of seconds. -/
inductive Freq where
  | secondly
  | minutely
  | hourly
  | daily
  | weekly
deriving DecidableEq, Repr

/-- Modelled from the spec: a normalized repetition rule as produced by the
external rule evaluator (`rrulestr`), reduced to the constructs the model
supports: a frequency, a positive interval, an optional COUNT and an
optional UNTIL bound.  The UNTIL bound is represented directly as a Unix
instant in seconds. -/
structure RRule where
  freq : Freq
  interval : Nat
  count : Option Nat
  untilTime : Option Int
deriving DecidableEq, Repr

/-- Seconds covered by one unit of a frequency. -/
def freqSeconds : Freq → Nat
  | .secondly => 1
  | .minutely => 60
  | .hourly => 3600
  | .daily => 86400
  | .weekly => 604800

/-- Seconds between two consecutive occurrences of a rule. -/
def ruleStep (r : RRule) : Nat := r.interval * freqSeconds r.freq

/-- How many occurrences of the rule, counted from the anchor, start no
later than `hi`, additionally truncated by the rule's COUNT limit. -/
def rawLen (r : RRule) (anchor hi : Int) : Nat :=
  let base : Nat := if anchor ≤ hi then (hi - anchor).toNat / ruleStep r + 1 else 0
  match r.count with
  | some c => min c base
  | none => base

/-- The occurrence starts of a rule from its anchor, cut off after `hi`:
`anchor + k * step` for `k = 0, 1, ...`. -/
def rawOccurrences (r : RRule) (anchor hi : Int) : List Int :=
  (List.range (rawLen r anchor hi)).map (fun k => anchor + ((k * ruleStep r : Nat) : Int))

/-- Modelled from the spec: the external generator capability
(`rule.between(checkStart, checkEnd, true)`): the ordered occurrence starts
of the rule, anchored at `anchor`, that lie in the inclusive window
`[ws, we]`, also bounded by the rule's UNTIL instant. -/
def ruleBetween (r : RRule) (anchor ws we : Int) : List Int :=
  let hi := min we (r.untilTime.getD we)
  (rawOccurrences r anchor hi).filter (fun t => decide (ws ≤ t) && decide (t ≤ we))

/-- Whether `p` is a leading piece of `s`, stated on the character lists so
that it evaluates by kernel reduction; the behaviour of
`String.startsWith`. -/
def strStartsWith (s p : String) : Bool := p.data.isPrefixOf s.data

/-- Split a character list at every occurrence of the separator, the
behaviour of `String.split` in JavaScript and of `String.splitOn` for a
one-character separator: the empty list yields one empty piece. -/
def splitOnSep (sep : Char) : List Char → List (List Char)
  | [] => [[]]
  | c :: cs =>
    match splitOnSep sep cs with
    | [] => [[]]
    | r :: rs => if c = sep then [] :: r :: rs else (c :: r) :: rs

/-- Parse a decimal digit string. -/
def parseNatDigits (cs : List Char) : Option Nat :=
  if cs = [] then none
  else if cs.all Char.isDigit then
    some (cs.foldl (fun n c => 10 * n + (c.toNat - 48)) 0)
  else none

/-- Parse a FREQ value. -/
def parseFreq (cs : List Char) : Option Freq :=
  if cs = "SECONDLY".data then some .secondly
  else if cs = "MINUTELY".data then some .minutely
  else if cs = "HOURLY".data then some .hourly
  else if cs = "DAILY".data then some .daily
  else if cs = "WEEKLY".data then some .weekly
  else none

/-- Partial rule options gathered while scanning `KEY=VALUE` parts. -/
structure RRuleOptions where
  freq : Option Freq := none
  interval : Option Nat := none
  count : Option Nat := none
deriving DecidableEq, Repr

/-- Consume one `KEY=VALUE` part of a rule body.  A part that is not of
that shape, an unknown key, or an unparsable value is a parse failure, as
`rrulestr` throws on them. -/
def parsePart (acc : Option RRuleOptions) (part : List Char) : Option RRuleOptions :=
  match acc with
  | none => none
  | some a =>
    match splitOnSep '=' part with
    | [k, v] =>
      if k = "FREQ".data then
        match parseFreq v with
        | some f => some { a with freq := some f }
        | none => none
      else if k = "INTERVAL".data then
        match parseNatDigits v with
        | some n => if n = 0 then none else some { a with interval := some n }
        | none => none
      else if k = "COUNT".data then
        match parseNatDigits v with
        | some n => some { a with count := some n }
        | none => none
      else none
    | _ => none

/-- Modelled from the spec: the external `rrulestr` parser.  It requires the
`RRULE:` prefix, splits the body on `;` into `KEY=VALUE` parts, requires a
FREQ, and defaults the interval to 1; any malformed part raises (here:
`none`).  Constructs outside the model's scope (UNTIL date strings,
BYDAY, monthly and yearly frequencies) are conservatively treated as a
parse failure. -/
def parseRRule (s : String) : Option RRule :=
  if strStartsWith s "RRULE:" then
    match (splitOnSep ';' (s.data.drop 6)).foldl parsePart (some {}) with
    | some opts =>
      match opts.freq with
      | some f =>
        some { freq := f, interval := opts.interval.getD 1, count := opts.count,
               untilTime := none }
      | none => none
    | none => none
  else none

/-- The rule normalization of isRecurrenceInRange: ensure the `RRULE:`
prefix that `rrulestr` expects, adding it if absent. -/
def normalizeRule (recurrenceRule : String) : String :=
  if strStartsWith recurrenceRule "RRULE:" then recurrenceRule
  else "RRULE:" ++ recurrenceRule

/-- The overlap test applied to one occurrence start inside the `some`
callback of isRecurrenceInRange: the occurrence starts in the check range,
or ends in it, or completely contains it. -/
def overlapsRange (eventDuration : Int) (checkRange : TimeRange)
    (occurrenceStart : Int) : Bool :=
  let occurrenceEnd := occurrenceStart + eventDuration
  (decide (checkRange.startTime ≤ occurrenceStart) &&
   decide (occurrenceStart ≤ checkRange.endTime)) ||
  (decide (checkRange.startTime ≤ occurrenceEnd) &&
   decide (occurrenceEnd ≤ checkRange.endTime)) ||
  (decide (occurrenceStart ≤ checkRange.startTime) &&
   decide (checkRange.endTime ≤ occurrenceEnd))

/-- The engine isRecurrenceInRange of src/src/utils/recurrence.ts, with its
diagnostic side channel made explicit: the returned list holds the
`console.error` messages the call emits.  An empty rule returns false with
no diagnostic; a rule the parser rejects is caught by the surrounding
`try`/`catch`, which logs and returns false; otherwise the occurrences in
the check range are generated and tested for overlap. -/
def isRecurrenceInRangeLog (recurrenceRule : String) (eventTime checkRange : TimeRange) :
    Bool × List String :=
  if recurrenceRule = "" then (false, [])
  else
    let eventDuration := eventTime.endTime - eventTime.startTime
    match parseRRule (normalizeRule recurrenceRule) with
    | none => (false, ["Error checking recurrence:"])
    | some rule =>
      ((ruleBetween rule eventTime.startTime checkRange.startTime checkRange.endTime).any
        (overlapsRange eventDuration checkRange), [])

/-- The boolean result of isRecurrenceInRange. -/
def isRecurrenceInRange (recurrenceRule : String) (eventTime checkRange : TimeRange) :
    Bool :=
  (isRecurrenceInRangeLog recurrenceRule eventTime checkRange).1

/-- One run of the engine against an accumulated diagnostic log: the state
that a `console.error` sink would carry between calls. -/
def runIsRecurrenceInRange (recurrenceRule : String) (eventTime checkRange : TimeRange)
    (log : List String) : Bool × List String :=
  ((isRecurrenceInRangeLog recurrenceRule eventTime checkRange).1,
   log ++ (isRecurrenceInRangeLog recurrenceRule eventTime checkRange).2)

/-- A raw calendar event record as consumed by the `list_events` filter of
build/utils/token.js.  `none` models an absent field; the decimal timestamp
strings of `start_time?.timestamp` / `end_time?.timestamp` are embedded as
their parsed integer value, `none` when the field is absent or empty
(falsy). -/
structure CalendarEvent where
  status : Option String
  recurrence : Option String
  startTimestamp : Option Int
  endTimestamp : Option Int
deriving DecidableEq, Repr

/-- The filter predicate of the `list_events` handler in
build/utils/token.js: a non-cancelled event with both timestamps present
whose own interval is contained in `[ws, we]`, or an event whose
`recurrence` field is not the empty string, is not cancelled, and for which
the recurrence engine reports an overlap (an absent recurrence field is
passed to the engine as `""` via `event.recurrence || ""`). -/
def includeEvent (ws we : Int) (e : CalendarEvent) : Bool :=
  (decide (e.status ≠ some "cancelled") &&
   e.startTimestamp.isSome &&
   e.endTimestamp.isSome &&
   decide (ws ≤ e.startTimestamp.getD 0) &&
   decide (e.endTimestamp.getD 0 ≤ we)) ||
  (decide (e.recurrence ≠ some "") &&
   decide (e.status ≠ some "cancelled") &&
   isRecurrenceInRange (e.recurrence.getD "")
     { startTime := e.startTimestamp.getD 0, endTime := e.endTimestamp.getD 0 }
     { startTime := ws, endTime := we })

/-- The filtering step of `list_events`: keep the events the predicate
accepts. -/
def filterEvents (ws we : Int) (events : List CalendarEvent) : List CalendarEvent :=
  events.filter (includeEvent ws we)

/-! ## Helper lemmas -/

lemma mem_rawOccurrences {r : RRule} {anchor hi t : Int}
    (ht : t ∈ rawOccurrences r anchor hi) :
    ∃ k : Nat, k < rawLen r anchor hi ∧ t = anchor + ((k * ruleStep r : Nat) : Int) := by
  simp only [rawOccurrences, List.mem_map, List.mem_range] at ht
  obtain ⟨k, hk, rfl⟩ := ht
  exact ⟨k, hk, rfl⟩

lemma rawLen_le_base {r : RRule} {anchor hi : Int} :
    rawLen r anchor hi ≤
      (if anchor ≤ hi then (hi - anchor).toNat / ruleStep r + 1 else 0) := by
  unfold rawLen
  cases hc : r.count with
  | none => exact Nat.le_refl _
  | some c => exact Nat.min_le_right _ _

lemma rawLen_le_count {r : RRule} {anchor hi : Int} {c : Nat} (hc : r.count = some c) :
    rawLen r anchor hi ≤ c := by
  unfold rawLen
  rw [hc]
  exact Nat.min_le_left _ _

lemma rawOccurrences_bounds {r : RRule} {anchor hi t : Int}
    (ht : t ∈ rawOccurrences r anchor hi) : anchor ≤ t ∧ t ≤ hi := by
  obtain ⟨k, hk, rfl⟩ := mem_rawOccurrences ht
  have hbase := @rawLen_le_base r anchor hi
  by_cases hah : anchor ≤ hi
  · rw [if_pos hah] at hbase
    have hk' : k ≤ (hi - anchor).toNat / ruleStep r := by omega
    have hks : k * ruleStep r ≤ (hi - anchor).toNat := by
      rcases Nat.eq_zero_or_pos (ruleStep r) with h0 | hpos
      · simp [h0]
      · calc k * ruleStep r ≤ ((hi - anchor).toNat / ruleStep r) * ruleStep r :=
              Nat.mul_le_mul_right _ hk'
          _ ≤ (hi - anchor).toNat := Nat.div_mul_le_self _ _
    constructor
    · have : (0 : Int) ≤ ((k * ruleStep r : Nat) : Int) := Int.natCast_nonneg _
      omega
    · omega
  · rw [if_neg hah] at hbase
    omega

lemma mem_ruleBetween {r : RRule} {anchor ws we t : Int} :
    t ∈ ruleBetween r anchor ws we ↔
      t ∈ rawOccurrences r anchor (min we (r.untilTime.getD we)) ∧ ws ≤ t ∧ t ≤ we := by
  simp [ruleBetween, List.mem_filter]

lemma ruleBetween_bounds {r : RRule} {anchor ws we t : Int}
    (ht : t ∈ ruleBetween r anchor ws we) : ws ≤ t ∧ t ≤ we :=
  (mem_ruleBetween.mp ht).2

lemma ruleBetween_degenerate {r : RRule} {anchor ws we : Int} (h : we < ws) :
    ruleBetween r anchor ws we = [] := by
  rw [List.eq_nil_iff_forall_not_mem]
  intro t ht
  have := ruleBetween_bounds ht
  omega

lemma isRecurrenceInRange_parsed {r : String} {et cr : TimeRange} {rule : RRule}
    (hr : r ≠ "") (hp : parseRRule (normalizeRule r) = some rule) :
    isRecurrenceInRange r et cr =
      (ruleBetween rule et.startTime cr.startTime cr.endTime).any
        (overlapsRange (et.endTime - et.startTime) cr) := by
  simp [isRecurrenceInRange, isRecurrenceInRangeLog, hr, hp]

lemma isRecurrenceInRangeLog_parse_fail {r : String} {et cr : TimeRange}
    (hr : r ≠ "") (hp : parseRRule (normalizeRule r) = none) :
    isRecurrenceInRangeLog r et cr = (false, ["Error checking recurrence:"]) := by
  simp [isRecurrenceInRangeLog, hr, hp]

lemma overlapsRange_of_start_in {d : Int} {cr : TimeRange} {t : Int}
    (h1 : cr.startTime ≤ t) (h2 : t ≤ cr.endTime) :
    overlapsRange d cr t = true := by
  simp only [overlapsRange, Bool.or_eq_true, Bool.and_eq_true, decide_eq_true_eq]
  exact Or.inl (Or.inl ⟨h1, h2⟩)

/-! ## Claim theorems -/

/-- Event used against claim C1: not cancelled, a malformed repetition
rule, own interval contained in the window `[1000, 2000]`. -/
def c1Event : CalendarEvent :=
  { status := some "confirmed", recurrence := some "GARBAGE",
    startTimestamp := some 1200, endTimestamp := some 1500 }

/-- C1, counterexample: the claimed iff fails.  A non-cancelled event with
a malformed repetition rule (so the engine returns false) whose interval is
fully contained in the window is still included by the filter: the
containment branch of the filter does not require the absence of a rule. -/
theorem c1_filter_counterexample :
    c1Event.status ≠ some "cancelled" ∧
    includeEvent 1000 2000 c1Event = true ∧
    ¬ (((c1Event.recurrence = none ∨ c1Event.recurrence = some "") ∧
          (1000 : Int) ≤ c1Event.startTimestamp.getD 0 ∧
          c1Event.endTimestamp.getD 0 ≤ 2000) ∨
        (¬ (c1Event.recurrence = none ∨ c1Event.recurrence = some "") ∧
          isRecurrenceInRange (c1Event.recurrence.getD "")
            { startTime := c1Event.startTimestamp.getD 0,
              endTime := c1Event.endTimestamp.getD 0 }
            { startTime := 1000, endTime := 2000 } = true)) := by
  decide

/-- C1, amended: a non-cancelled record is included iff both of its
timestamps are present and its own interval is fully contained in the
window — regardless of any repetition rule — or its recurrence field
differs from the empty string and the recurrence engine reports an
overlap. -/
theorem c1_filter_amended (ws we : Int) (e : CalendarEvent)
    (h : e.status ≠ some "cancelled") :
    includeEvent ws we e = true ↔
      (((∃ s, e.startTimestamp = some s) ∧ (∃ u, e.endTimestamp = some u) ∧
        ws ≤ e.startTimestamp.getD 0 ∧ e.endTimestamp.getD 0 ≤ we) ∨
       (e.recurrence ≠ some "" ∧
        isRecurrenceInRange (e.recurrence.getD "")
          { startTime := e.startTimestamp.getD 0, endTime := e.endTimestamp.getD 0 }
          { startTime := ws, endTime := we } = true)) := by
  simp only [includeEvent, Bool.or_eq_true, Bool.and_eq_true, decide_eq_true_eq,
    Option.isSome_iff_exists]
  tauto

/-- Witness for C1's amended theorem at a concrete non-cancelled event. -/
theorem c1_filter_amended_witness :
    ((⟨some "confirmed", some "", some 10, some 20⟩ : CalendarEvent).status ≠
      some "cancelled") ∧
    (includeEvent 0 100 ⟨some "confirmed", some "", some 10, some 20⟩ = true ↔
      (((∃ s, (some (10 : Int)) = some s) ∧ (∃ u, (some (20 : Int)) = some u) ∧
        (0 : Int) ≤ 10 ∧ (20 : Int) ≤ 100) ∨
       ((some "" : Option String) ≠ some "" ∧
        isRecurrenceInRange "" { startTime := 10, endTime := 20 }
          { startTime := 0, endTime := 100 } = true))) :=
  ⟨by decide, c1_filter_amended 0 100 ⟨some "confirmed", some "", some 10, some 20⟩ (by decide)⟩

/-- C2: the overlap classifier marks an occurrence start overlapping iff it
starts in the window, or its derived end lies in the window, or its
interval fully spans the window; and the engine's overall result is true
iff at least one generated occurrence satisfies some clause, false when the
occurrence sequence is empty or no occurrence matches. -/
theorem c2_overlap_classifier (r : String) (et cr : TimeRange) (rule : RRule)
    (hr : r ≠ "") (hp : parseRRule (normalizeRule r) = some rule) :
    (∀ t : Int, overlapsRange (et.endTime - et.startTime) cr t = true ↔
      ((cr.startTime ≤ t ∧ t ≤ cr.endTime) ∨
       (cr.startTime ≤ t + (et.endTime - et.startTime) ∧
        t + (et.endTime - et.startTime) ≤ cr.endTime) ∨
       (t ≤ cr.startTime ∧ cr.endTime ≤ t + (et.endTime - et.startTime)))) ∧
    (isRecurrenceInRange r et cr = true ↔
      ∃ t ∈ ruleBetween rule et.startTime cr.startTime cr.endTime,
        overlapsRange (et.endTime - et.startTime) cr t = true) := by
  constructor
  · intro t
    simp only [overlapsRange, Bool.or_eq_true, Bool.and_eq_true, decide_eq_true_eq]
    omega
  · rw [isRecurrenceInRange_parsed hr hp]
    simp [List.any_eq_true]

/-- Witness for C2 at a daily rule with a one-hour duration and a one-day
window. -/
theorem c2_overlap_classifier_witness :
    (("FREQ=DAILY;COUNT=5" : String) ≠ "") ∧
    parseRRule (normalizeRule "FREQ=DAILY;COUNT=5") =
      some { freq := Freq.daily, interval := 1, count := some 5, untilTime := none } ∧
    ((∀ t : Int, overlapsRange 3600 ⟨0, 86400⟩ t = true ↔
        (((0 : Int) ≤ t ∧ t ≤ 86400) ∨
         ((0 : Int) ≤ t + 3600 ∧ t + 3600 ≤ 86400) ∨
         (t ≤ 0 ∧ (86400 : Int) ≤ t + 3600))) ∧
      (isRecurrenceInRange "FREQ=DAILY;COUNT=5" ⟨0, 3600⟩ ⟨0, 86400⟩ = true ↔
        ∃ t ∈ ruleBetween
            { freq := Freq.daily, interval := 1, count := some 5, untilTime := none }
            0 0 86400,
          overlapsRange 3600 ⟨0, 86400⟩ t = true)) :=
  ⟨by decide, by decide,
    c2_overlap_classifier "FREQ=DAILY;COUNT=5" ⟨0, 3600⟩ ⟨0, 86400⟩
      { freq := Freq.daily, interval := 1, count := some 5, untilTime := none }
      (by decide) (by decide)⟩

/-- C3, counterexample (negation of the claim): no input produces a
rule-generated occurrence that starts 30 minutes before
`checkRange.startTime`, because generation is clipped to the inclusive
window; the claimed scenario of a 2-hour occurrence entering the window
only through its tail cannot arise. -/
theorem c3_tail_overlap_counterexample :
    ¬ ∃ (r : String) (et cr : TimeRange) (rule : RRule) (t : Int),
        r ≠ "" ∧ parseRRule (normalizeRule r) = some rule ∧
        et.endTime - et.startTime = 7200 ∧
        t ∈ ruleBetween rule et.startTime cr.startTime cr.endTime ∧
        t = cr.startTime - 1800 := by
  rintro ⟨r, et, cr, rule, t, -, -, -, ht, rfl⟩
  have := (ruleBetween_bounds ht).1
  omega

/-- C3, amended: every generated occurrence start lies inside the inclusive
window, so an occurrence starting before `checkRange.startTime` is never
generated and the end-in-window clause cannot be the deciding one. -/
theorem c3_tail_overlap_amended (rule : RRule) (anchor ws we t : Int)
    (ht : t ∈ ruleBetween rule anchor ws we) :
    ws ≤ t ∧ t ≤ we :=
  ruleBetween_bounds ht

/-- Witness for C3's amended theorem at a concrete generated occurrence. -/
theorem c3_tail_overlap_amended_witness :
    (1000 : Int) ∈ ruleBetween
        { freq := Freq.daily, interval := 1, count := none, untilTime := none }
        1000 1000 90000 ∧
    ((1000 : Int) ≤ 1000 ∧ (1000 : Int) ≤ 90000) :=
  ⟨by decide,
   c3_tail_overlap_amended
     { freq := Freq.daily, interval := 1, count := none, untilTime := none }
     1000 1000 90000 1000 (by decide)⟩

/-- C4: since generation clips starts to the inclusive window, every
generated occurrence satisfies the starts-in-window clause, and for a
non-empty rule that parses the engine's result equals the non-emptiness of
the generated occurrence sequence. -/
theorem c4_engine_nonempty (r : String) (et cr : TimeRange) (rule : RRule)
    (hr : r ≠ "") (hp : parseRRule (normalizeRule r) = some rule)
    (_hw : cr.startTime ≤ cr.endTime) :
    (∀ t ∈ ruleBetween rule et.startTime cr.startTime cr.endTime,
      cr.startTime ≤ t ∧ t ≤ cr.endTime) ∧
    isRecurrenceInRange r et cr =
      !(ruleBetween rule et.startTime cr.startTime cr.endTime).isEmpty := by
  refine ⟨fun t ht => ruleBetween_bounds ht, ?_⟩
  rw [isRecurrenceInRange_parsed hr hp]
  cases hl : ruleBetween rule et.startTime cr.startTime cr.endTime with
  | nil => rfl
  | cons t ts =>
    have hmem : t ∈ ruleBetween rule et.startTime cr.startTime cr.endTime := by
      rw [hl]; exact List.mem_cons_self t ts
    have hb := ruleBetween_bounds hmem
    simp [overlapsRange_of_start_in hb.1 hb.2]

/-- Witness for C4 at a daily rule whose anchor sits in the window. -/
theorem c4_engine_nonempty_witness :
    (("FREQ=DAILY;COUNT=5" : String) ≠ "") ∧
    parseRRule (normalizeRule "FREQ=DAILY;COUNT=5") =
      some { freq := Freq.daily, interval := 1, count := some 5, untilTime := none } ∧
    ((0 : Int) ≤ 3600) ∧
    ((∀ t ∈ ruleBetween
          { freq := Freq.daily, interval := 1, count := some 5, untilTime := none }
          0 0 3600,
        (0 : Int) ≤ t ∧ t ≤ 3600) ∧
      isRecurrenceInRange "FREQ=DAILY;COUNT=5" ⟨0, 3600⟩ ⟨0, 3600⟩ =
        !(ruleBetween
            { freq := Freq.daily, interval := 1, count := some 5, untilTime := none }
            0 0 3600).isEmpty) :=
  ⟨by decide, by decide, by decide,
    c4_engine_nonempty "FREQ=DAILY;COUNT=5" ⟨0, 3600⟩ ⟨0, 3600⟩
      { freq := Freq.daily, interval := 1, count := some 5, untilTime := none }
      (by decide) (by decide) (by decide)⟩

/-- C5: a rule the parser rejects never lets the failure escape: the
`try`/`catch` converts it to a false result plus one diagnostic
emission. -/
theorem c5_malformed_resolves_false (r : String) (et cr : TimeRange)
    (hr : r ≠ "") (hp : parseRRule (normalizeRule r) = none) :
    isRecurrenceInRangeLog r et cr = (false, ["Error checking recurrence:"]) ∧
    isRecurrenceInRange r et cr = false := by
  refine ⟨isRecurrenceInRangeLog_parse_fail hr hp, ?_⟩
  simp [isRecurrenceInRange, isRecurrenceInRangeLog_parse_fail hr hp]

/-- Witness for C5 at the malformed rule text `GARBAGE`. -/
theorem c5_malformed_resolves_false_witness :
    (("GARBAGE" : String) ≠ "") ∧
    parseRRule (normalizeRule "GARBAGE") = none ∧
    (isRecurrenceInRangeLog "GARBAGE" ⟨0, 0⟩ ⟨0, 0⟩ =
        (false, ["Error checking recurrence:"]) ∧
      isRecurrenceInRange "GARBAGE" ⟨0, 0⟩ ⟨0, 0⟩ = false) :=
  ⟨by decide, by decide,
    c5_malformed_resolves_false "GARBAGE" ⟨0, 0⟩ ⟨0, 0⟩ (by decide) (by decide)⟩

/-- C6: for every eventTime and checkRange, the engine returns false when
the repetition rule is the empty string. -/
theorem c6_empty_rule_false (et cr : TimeRange) :
    isRecurrenceInRange "" et cr = false := rfl

/-- C7: the occurrence generator produces only start instants inside the
inclusive window; it is empty when the anchor is later than the window end,
when the COUNT limit is exhausted before the window start, and when the
UNTIL bound precedes the window start. -/
theorem c7_generator_window (rule : RRule) (anchor ws we : Int) :
    (∀ t ∈ ruleBetween rule anchor ws we, ws ≤ t ∧ t ≤ we) ∧
    (we < anchor → ruleBetween rule anchor ws we = []) ∧
    (∀ c : Nat, rule.count = some c →
      anchor + (((c - 1) * ruleStep rule : Nat) : Int) < ws →
      ruleBetween rule anchor ws we = []) ∧
    (∀ u : Int, rule.untilTime = some u → u < ws →
      ruleBetween rule anchor ws we = []) := by
  refine ⟨fun t ht => ruleBetween_bounds ht, ?_, ?_, ?_⟩
  · intro hlt
    rw [List.eq_nil_iff_forall_not_mem]
    intro t ht
    obtain ⟨htraw, h1, h2⟩ := mem_ruleBetween.mp ht
    have hb := (rawOccurrences_bounds htraw).1
    omega
  · intro c hc hlt
    rw [List.eq_nil_iff_forall_not_mem]
    intro t ht
    obtain ⟨htraw, h1, h2⟩ := mem_ruleBetween.mp ht
    obtain ⟨k, hk, rfl⟩ := mem_rawOccurrences htraw
    have hkc : k < c := lt_of_lt_of_le hk (rawLen_le_count hc)
    have hmul : k * ruleStep rule ≤ (c - 1) * ruleStep rule :=
      Nat.mul_le_mul_right _ (by omega)
    have hcast : ((k * ruleStep rule : Nat) : Int) ≤
        (((c - 1) * ruleStep rule : Nat) : Int) := by exact_mod_cast hmul
    omega
  · intro u hu hlt
    rw [List.eq_nil_iff_forall_not_mem]
    intro t ht
    obtain ⟨htraw, h1, h2⟩ := mem_ruleBetween.mp ht
    have hb := (rawOccurrences_bounds htraw).2
    rw [hu] at hb
    simp only [Option.getD_some] at hb
    have : min we u ≤ u := min_le_right _ _
    omega

/-- Witness for C7: a daily rule with COUNT 2 anchored well before the
window generates nothing. -/
theorem c7_generator_window_witness :
    ruleBetween { freq := Freq.daily, interval := 1, count := some 2, untilTime := none }
      0 1000000 2000000 = [] :=
  (c7_generator_window
    { freq := Freq.daily, interval := 1, count := some 2, untilTime := none }
    0 1000000 2000000).2.2.1 2 rfl (by decide)

/-- C8, counterexample: a degenerate eventTime (endTime before startTime)
is not guarded; with a daily rule anchored inside the window the engine
returns true, not false. -/
theorem c8_degenerate_counterexample :
    (TimeRange.mk 2000 1000).endTime < (TimeRange.mk 2000 1000).startTime ∧
    isRecurrenceInRange "FREQ=DAILY" (TimeRange.mk 2000 1000)
      (TimeRange.mk 2000 3000) = true := by
  decide

/-- C8, amended: the engine resolves to false when the check range is
degenerate (`checkRange.endTime < checkRange.startTime`); a degenerate
eventTime is not guarded. -/
theorem c8_degenerate_window_false (r : String) (et cr : TimeRange)
    (h : cr.endTime < cr.startTime) :
    isRecurrenceInRange r et cr = false := by
  by_cases hr : r = ""
  · subst hr; rfl
  · cases hp : parseRRule (normalizeRule r) with
    | none => simp [isRecurrenceInRange, isRecurrenceInRangeLog_parse_fail hr hp]
    | some rule =>
      rw [isRecurrenceInRange_parsed hr hp, ruleBetween_degenerate h]
      rfl

/-- Witness for C8's amended theorem at a reversed check range. -/
theorem c8_degenerate_window_false_witness :
    ((3000 : Int) < 4000) ∧
    isRecurrenceInRange "FREQ=DAILY" ⟨0, 3600⟩ ⟨4000, 3000⟩ = false :=
  ⟨by decide, c8_degenerate_window_false "FREQ=DAILY" ⟨0, 3600⟩ ⟨4000, 3000⟩ (by decide)⟩

/-- C9: no record whose status is "cancelled" survives the filter,
regardless of its interval or repetition rule. -/
theorem c9_no_cancelled_in_output (ws we : Int) (events : List CalendarEvent) :
    (filterEvents ws we events).all
      (fun e => decide (e.status ≠ some "cancelled")) = true := by
  rw [List.all_eq_true]
  intro e he
  simp only [filterEvents] at he
  have hinc := (List.mem_filter.mp he).2
  simp only [includeEvent, Bool.or_eq_true, Bool.and_eq_true, decide_eq_true_eq] at hinc
  rcases hinc with ⟨⟨⟨⟨h, -⟩, -⟩, -⟩, -⟩ | ⟨⟨-, h⟩, -⟩
  · exact decide_eq_true h
  · exact decide_eq_true h

/-- C10: the engine is deterministic and pure: equal inputs give equal
boolean results whatever diagnostic state has accumulated, and an earlier
call's effect on the diagnostic log does not change a later call's
result. -/
theorem c10_engine_pure (r r' : String) (et et' cr cr' : TimeRange)
    (log log' : List String)
    (h1 : r = r') (h2 : et = et') (h3 : cr = cr') :
    (runIsRecurrenceInRange r et cr log).1 =
      (runIsRecurrenceInRange r' et' cr' log').1 ∧
    (runIsRecurrenceInRange r et cr
        ((runIsRecurrenceInRange r' et' cr' log').2)).1 =
      (runIsRecurrenceInRange r et cr log).1 := by
  subst h1; subst h2; subst h3
  exact ⟨rfl, rfl⟩

/-- Witness for C10 at a daily rule, with two different prior logs. -/
theorem c10_engine_pure_witness :
    ("FREQ=DAILY" : String) = "FREQ=DAILY" ∧
    ((runIsRecurrenceInRange "FREQ=DAILY" ⟨0, 3600⟩ ⟨0, 86400⟩ []).1 =
      (runIsRecurrenceInRange "FREQ=DAILY" ⟨0, 3600⟩ ⟨0, 86400⟩ ["prior"]).1 ∧
     (runIsRecurrenceInRange "FREQ=DAILY" ⟨0, 3600⟩ ⟨0, 86400⟩
        ((runIsRecurrenceInRange "FREQ=DAILY" ⟨0, 3600⟩ ⟨0, 86400⟩ ["prior"]).2)).1 =
      (runIsRecurrenceInRange "FREQ=DAILY" ⟨0, 3600⟩ ⟨0, 86400⟩ []).1) :=
  ⟨rfl, c10_engine_pure "FREQ=DAILY" "FREQ=DAILY" ⟨0, 3600⟩ ⟨0, 3600⟩
    ⟨0, 86400⟩ ⟨0, 86400⟩ [] ["prior"] rfl rfl rfl⟩
